import Mathlib

set_option maxHeartbeats 1000000

/-
Shallow embedding of the gitcast-server workers (Cloudflare Workers + D1).
Timestamps are modelled as integers (milliseconds since the epoch); the code
stores ISO-8601 strings whose lexicographic order coincides with chronological
order, so integer comparison is a faithful abstraction of the string
comparisons performed by SQLite.
-/

namespace Gitcast

/-! Raw GitHub activity events, as consumed by the shared classifier
(packages/shared/src/utils.ts). Optional fields model absent JSON members. -/

structure Commit where
  sha : String
  message : String
deriving DecidableEq, Repr

structure ResourceLink where
  html_url : Option String
deriving DecidableEq, Repr

structure PullRequestInfo where
  html_url : Option String
  number : Option Nat
deriving DecidableEq, Repr

structure IssueInfo where
  html_url : Option String
  number : Option Nat
deriving DecidableEq, Repr

structure Payload where
  commits : Option (List Commit)
  ref_type : Option String
  ref : Option String
  action : Option String
  number : Option Nat
  pull_request : Option PullRequestInfo
  issue : Option IssueInfo
  comment : Option ResourceLink
  forkee : Option ResourceLink
  release : Option ResourceLink
  review : Option ResourceLink
deriving DecidableEq, Repr

structure Actor where
  login : String
  avatar_url : String
deriving DecidableEq, Repr

structure RepoRef where
  name : String
deriving DecidableEq, Repr

structure GithubEvent where
  id : String
  type : String
  created_at : Int
  actor : Actor
  repo : RepoRef
  payload : Option Payload
deriving DecidableEq, Repr

/-- JavaScript falsy-or on an optional string: an absent value or the empty
string falls through to the default, mirroring the source's use of the
logical-or operator on possibly-undefined string fields. -/
def jsOr (o : Option String) (d : String) : String :=
  match o with
  | none => d
  | some s => if s = "" then d else s

/-- A JavaScript template literal renders an undefined numeric field as the
text "undefined"; this mirrors that behaviour for the constructed fallback
links in getEventUrl. -/
def jsNat (o : Option Nat) : String :=
  match o with
  | none => "undefined"
  | some n => toString n

/-- One step of JavaScript String.replace with a string pattern: the first
occurrence of the pattern (scanning left to right) is replaced, everything
else is kept. -/
def replaceFirstAux (pat repl : List Char) : List Char → List Char
  | [] => []
  | c :: cs =>
      if pat.isPrefixOf (c :: cs) then repl ++ (c :: cs).drop pat.length
      else c :: replaceFirstAux pat repl cs

/-- JavaScript String.replace with a string pattern: replaces only the first
occurrence of the pattern, not every occurrence and not specifically a
trailing suffix. -/
def replaceFirst (s pat repl : String) : String :=
  ⟨replaceFirstAux pat.data repl.data s.data⟩

/-- The commits carried by an event, with absent payload or absent commits
treated as an empty list, as the optional-chaining in the source does. -/
def eventCommits (event : GithubEvent) : List Commit :=
  (event.payload.bind Payload.commits).getD []

/-- The repository deep link built throughout the classifier. -/
def repoUrl (event : GithubEvent) : String :=
  "https://github.com/" ++ event.repo.name

/-- getEventAction from packages/shared/src/utils.ts: maps an event type to a
human-readable action string; the default branch removes the first occurrence
of "Event" from the type string. -/
def getEventAction (event : GithubEvent) : String :=
  if event.type = "PushEvent" then
    let commitCount := (eventCommits event).length
    "pushed " ++ toString commitCount ++ " commit" ++ (if commitCount ≠ 1 then "s" else "")
  else if event.type = "CreateEvent" then
    "created " ++ jsOr (event.payload.bind Payload.ref_type) "repository"
  else if event.type = "PullRequestEvent" then
    jsOr (event.payload.bind Payload.action) "updated" ++ " pull request"
  else if event.type = "IssuesEvent" then
    jsOr (event.payload.bind Payload.action) "updated" ++ " issue"
  else if event.type = "IssueCommentEvent" then
    "commented on issue"
  else if event.type = "WatchEvent" then
    "starred repository"
  else if event.type = "ForkEvent" then
    "forked repository"
  else
    replaceFirst (event.type) ("Event") ("")

/-- getEventUrl from packages/shared/src/utils.ts: maps an event to a deep
link, defaulting to the repository URL. -/
def getEventUrl (event : GithubEvent) : String :=
  let rUrl := repoUrl event
  if event.type = "PushEvent" then
    match eventCommits event with
    | [] => rUrl
    | c :: _ => rUrl ++ "/commit/" ++ c.sha
  else if event.type = "PullRequestEvent" then
    jsOr ((event.payload.bind Payload.pull_request).bind PullRequestInfo.html_url)
      (rUrl ++ "/pull/" ++ jsNat (event.payload.bind Payload.number))
  else if event.type = "IssuesEvent" then
    jsOr ((event.payload.bind Payload.issue).bind IssueInfo.html_url)
      (rUrl ++ "/issues/" ++ jsNat ((event.payload.bind Payload.issue).bind IssueInfo.number))
  else if event.type = "IssueCommentEvent" then
    jsOr ((event.payload.bind Payload.comment).bind ResourceLink.html_url)
      (jsOr ((event.payload.bind Payload.issue).bind IssueInfo.html_url)
        (rUrl ++ "/issues/" ++ jsNat ((event.payload.bind Payload.issue).bind IssueInfo.number)))
  else if event.type = "CreateEvent" then
    if (event.payload.bind Payload.ref_type) = some "branch" then
      rUrl ++ "/tree/" ++ ((event.payload.bind Payload.ref).getD "undefined")
    else if (event.payload.bind Payload.ref_type) = some "tag" then
      rUrl ++ "/releases/tag/" ++ ((event.payload.bind Payload.ref).getD "undefined")
    else rUrl
  else if event.type = "DeleteEvent" then
    rUrl
  else if event.type = "ForkEvent" then
    jsOr ((event.payload.bind Payload.forkee).bind ResourceLink.html_url) rUrl
  else if event.type = "WatchEvent" then
    rUrl
  else if event.type = "ReleaseEvent" then
    jsOr ((event.payload.bind Payload.release).bind ResourceLink.html_url) (rUrl ++ "/releases")
  else if event.type = "CommitCommentEvent" then
    jsOr ((event.payload.bind Payload.comment).bind ResourceLink.html_url) rUrl
  else if event.type = "PullRequestReviewEvent" then
    jsOr ((event.payload.bind Payload.review).bind ResourceLink.html_url)
      (jsOr ((event.payload.bind Payload.pull_request).bind PullRequestInfo.html_url)
        (rUrl ++ "/pull/" ++ jsNat ((event.payload.bind Payload.pull_request).bind PullRequestInfo.number)))
  else if event.type = "PullRequestReviewCommentEvent" then
    jsOr ((event.payload.bind Payload.comment).bind ResourceLink.html_url)
      (jsOr ((event.payload.bind Payload.pull_request).bind PullRequestInfo.html_url)
        (rUrl ++ "/pull/" ++ jsNat ((event.payload.bind Payload.pull_request).bind PullRequestInfo.number)))
  else if event.type = "PublicEvent" then
    rUrl
  else if event.type = "MemberEvent" then
    rUrl ++ "/graphs/contributors"
  else
    rUrl

/-- getCommitMessage from packages/shared/src/utils.ts. -/
def getCommitMessage (event : GithubEvent) : Option String :=
  if event.type = "PushEvent" then
    match eventCommits event with
    | [] => none
    | c :: _ => some c.message
  else none

/-- getCommitUrl from packages/shared/src/utils.ts. -/
def getCommitUrl (event : GithubEvent) : Option String :=
  if event.type = "PushEvent" then
    match eventCommits event with
    | [] => none
    | c :: _ => some ("https://github.com/" ++ event.repo.name ++ "/commit/" ++ c.sha)
  else none

/-- The spec-side phrasing of the classifier's push action: "pushed N
commit(s)" with English pluralization. -/
def pushActionString (n : Nat) : String :=
  if n = 1 then "pushed 1 commit" else "pushed " ++ toString n ++ " commits"

/-- Modelled from the spec's words, for comparison with the code's default
branch: the event kind with the trailing five-character suffix removed when
the kind ends in that suffix, unchanged otherwise. -/
def stripTrailingEvent (s : String) : String :=
  if List.isSuffixOf (("Event").data) (s.data) then ⟨s.data.take (s.data.length - 5)⟩
  else s

/-! The persisted relational state, one structure per table of schema.sql,
each table modelled as the list of its rows. -/

structure UserRow where
  fid : Nat
  farcaster_username : Option String
  farcaster_display_name : Option String
  farcaster_pfp_url : Option String
  github_username : Option String
  last_updated : Int
deriving DecidableEq, Repr

structure FollowRow where
  follower_fid : Nat
  following_fid : Nat
  created_at : Int
deriving DecidableEq, Repr

structure GithubEventRow where
  id : String
  fid : Nat
  type : String
  created_at : Int
  actor_login : String
  actor_avatar_url : String
  repo_name : String
  repo_url : String
  action : String
  commit_message : Option String
  commit_url : Option String
  event_url : String
deriving DecidableEq, Repr

structure RepositoryRow where
  id : Nat
  name : String
  full_name : String
  description : String
  url : String
  html_url : String
  stars_count : Nat
  forks_count : Nat
  last_updated : Int
deriving DecidableEq, Repr

structure UserStarRow where
  fid : Nat
  repo_id : Nat
  starred_at : Int
deriving DecidableEq, Repr

structure GitcastDB where
  users : List UserRow
  follows : List FollowRow
  github_events : List GithubEventRow
  repositories : List RepositoryRow
  user_stars : List UserStarRow
deriving DecidableEq, Repr

/-! Queue messages (the discriminated payloads of the two task queues). -/

inductive NeynarMsg where
  | fetch_user_data (fid : Nat)
  | update_user (fid : Nat)
  | check_github_verifications (fids : List Nat)
deriving DecidableEq, Repr

inductive GithubMsg where
  | fetch_github_events (fid : Nat) (github_username : String)
  | fetch_starred_repos (fid : Nat) (github_username : String)
deriving DecidableEq, Repr

structure Verification where
  fid : Nat
  platformUsername : String
deriving DecidableEq, Repr

/-! github-worker: Activity Ingestion (fetch_github_events branch). -/

/-- The simplified event row built by the fetch_github_events branch of the
github-worker before the INSERT .. ON CONFLICT statement. -/
def simplifyEventRow (fid : Nat) (event : GithubEvent) : GithubEventRow :=
  { id := event.id
    fid := fid
    type := event.type
    created_at := event.created_at
    actor_login := event.actor.login
    actor_avatar_url := event.actor.avatar_url
    repo_name := event.repo.name
    repo_url := "https://github.com/" ++ event.repo.name
    action := getEventAction event
    commit_message := getCommitMessage event
    commit_url := getCommitUrl event
    event_url := getEventUrl event }

/-- INSERT INTO github_events .. ON CONFLICT (id) DO UPDATE SET ..: when a row
with the same id exists, every column except the key and fid is overwritten
with the excluded values; otherwise the new row is appended. -/
def upsertEvent (tbl : List GithubEventRow) (e : GithubEventRow) : List GithubEventRow :=
  if tbl.any (fun r => r.id = e.id) then
    tbl.map (fun r =>
      if r.id = e.id then
        { r with
          type := e.type
          created_at := e.created_at
          actor_login := e.actor_login
          actor_avatar_url := e.actor_avatar_url
          repo_name := e.repo_name
          repo_url := e.repo_url
          action := e.action
          commit_message := e.commit_message
          commit_url := e.commit_url
          event_url := e.event_url }
      else r)
  else tbl ++ [e]

/-- The fetch_github_events branch: every fetched event is simplified and
upserted into github_events keyed by its id. -/
def fetchGithubEventsHandler (db : GitcastDB) (fid : Nat) (events : List GithubEvent) :
    GitcastDB :=
  { db with
    github_events :=
      events.foldl (fun tbl e => upsertEvent tbl (simplifyEventRow fid e)) db.github_events }

/-! github-worker: Star Ingestion (fetch_starred_repos branch). -/

structure RepoInfo where
  id : Nat
  name : String
  full_name : String
  description : Option String
  url : String
  html_url : String
  stargazers_count : Nat
  forks_count : Nat
deriving DecidableEq, Repr

/-- INSERT INTO repositories .. ON CONFLICT (id) DO UPDATE SET stars_count,
forks_count, last_updated. -/
def upsertRepository (tbl : List RepositoryRow) (r : RepoInfo) (now : Int) :
    List RepositoryRow :=
  if tbl.any (fun x => x.id = r.id) then
    tbl.map (fun x =>
      if x.id = r.id then
        { x with
          stars_count := r.stargazers_count
          forks_count := r.forks_count
          last_updated := now }
      else x)
  else
    tbl ++ [{ id := r.id, name := r.name, full_name := r.full_name,
              description := r.description.getD "", url := r.url,
              html_url := r.html_url, stars_count := r.stargazers_count,
              forks_count := r.forks_count, last_updated := now }]

/-- INSERT INTO user_stars .. ON CONFLICT (fid, repo_id) DO NOTHING: a star
edge is inserted only when the pair is absent and is never overwritten. -/
def insertUserStar (tbl : List UserStarRow) (fid repo_id : Nat) (now : Int) :
    List UserStarRow :=
  if tbl.any (fun s => s.fid = fid ∧ s.repo_id = repo_id) then tbl
  else tbl ++ [{ fid := fid, repo_id := repo_id, starred_at := now }]

/-- UPDATE users SET last_updated = ? WHERE fid = ?. -/
def touchUser (tbl : List UserRow) (fid : Nat) (now : Int) : List UserRow :=
  tbl.map (fun u => if u.fid = fid then { u with last_updated := now } else u)

/-- The fetch_starred_repos branch: per starred repository, upsert the
repositories row and insert-if-absent the user_stars row; afterwards refresh
the user's last_updated. The source interleaves the two per-repository
statements, but they touch disjoint tables, so the interleaved loop equals
this componentwise fold. -/
def fetchStarredReposHandler (db : GitcastDB) (fid : Nat) (starred : List RepoInfo)
    (now : Int) : GitcastDB :=
  { db with
    repositories := starred.foldl (fun tbl r => upsertRepository tbl r now) db.repositories
    user_stars := starred.foldl (fun tbl r => insertUserStar tbl fid r.id now) db.user_stars
    users := touchUser db.users fid now }

/-! neynar-worker: Identity Resolution (update_user branch). -/

/-- INSERT INTO users (fid, last_updated) VALUES (?, ?) ON CONFLICT (fid)
DO NOTHING. -/
def insertUserStub (tbl : List UserRow) (fid : Nat) (now : Int) : List UserRow :=
  if tbl.any (fun u => u.fid = fid) then tbl
  else tbl ++ [{ fid := fid, farcaster_username := none, farcaster_display_name := none,
                 farcaster_pfp_url := none, github_username := none, last_updated := now }]

/-- The update_user branch of the neynar-worker queue consumer, applied to the
following list fetched from the social graph: ensures stubs for the follower
and everyone followed, enqueues fetch_user_data per followed identity,
replaces the follow edges only when the fetched list is non-empty, and
finally enqueues check_github_verifications for followed identities plus the
follower itself. -/
def updateUserHandler (db : GitcastDB) (fid : Nat) (following : List Nat) (now : Int) :
    GitcastDB × List NeynarMsg :=
  let users1 := insertUserStub db.users fid now
  let users2 := following.foldl (fun tbl g => insertUserStub tbl g now) users1
  let fetchMsgs := following.map NeynarMsg.fetch_user_data
  let follows2 :=
    if 0 < following.length then
      (db.follows.filter (fun e => ¬ e.follower_fid = fid)) ++
        following.map (fun g => { follower_fid := fid, following_fid := g, created_at := now })
    else db.follows
  ({ db with users := users2, follows := follows2 },
   fetchMsgs ++ [NeynarMsg.check_github_verifications (following ++ [fid])])

/-- The WarpcastApiClient.getFollowing result: on any upstream error the
client swallows the exception and returns an empty following list. -/
def getFollowingResult (resp : Except Unit (List Nat)) : List Nat :=
  match resp with
  | Except.ok l => l
  | Except.error _ => []

/-! neynar-worker: Verification Matching (check_github_verifications branch). -/

/-- Per-verification store mutation of the check_github_verifications branch:
UPDATE users SET github_username, last_updated WHERE fid = ?; if the update
reports zero changed rows, INSERT a fresh users row carrying the verified
username. -/
def applyVerification (tbl : List UserRow) (v : Verification) (now : Int) : List UserRow :=
  let changes := tbl.countP (fun u => u.fid = v.fid)
  let updated := tbl.map (fun u =>
    if u.fid = v.fid then
      { u with github_username := some v.platformUsername, last_updated := now }
    else u)
  if changes = 0 then
    updated ++ [{ fid := v.fid, farcaster_username := none, farcaster_display_name := none,
                  farcaster_pfp_url := none, github_username := some v.platformUsername,
                  last_updated := now }]
  else updated

/-- The whole check_github_verifications branch: applies every returned
verification and enqueues a fetch_github_events message per match. -/
def checkGithubVerificationsHandler (db : GitcastDB) (verifications : List Verification)
    (now : Int) : GitcastDB × List GithubMsg :=
  ({ db with users := verifications.foldl (fun tbl v => applyVerification tbl v now) db.users },
   verifications.map (fun v => GithubMsg.fetch_github_events v.fid v.platformUsername))

/-! Queue consumption discipline, shared by both workers' queue handlers. -/

/-- The per-message loop body of both queue consumers. The source runs
message.ack() as the first statement of the try block, before any fetch,
store mutation or follow-up enqueue; the catch block only logs, and the
Workers queue API has no un-ack, so the acknowledgement stands whatever
happens afterwards. `body` is the remainder of the try block, returning the
mutated store on success or an error when any step throws. The Boolean
component records whether the message ends the iteration acknowledged. -/
def consumeQueueMessage (db : GitcastDB) (body : GitcastDB → Except Unit GitcastDB) :
    Bool × GitcastDB :=
  match body db with
  | Except.ok db2 => (true, db2)
  | Except.error _ => (true, db)

/-- GitHubApiClient.getUserEvents: any upstream failure (network error,
rate-limit exhaustion) is caught inside the client, which then returns an
empty event list instead of propagating the failure. -/
def getUserEventsResult (fetch : Except Unit (List GithubEvent)) : List GithubEvent :=
  match fetch with
  | Except.ok evs => evs
  | Except.error _ => []

/-! schedule-worker: daily retention sweep (cron "0 0 * * *"). -/

/-- The daily cleanup trigger: the cutoff (now minus five days, in
milliseconds) is computed once, then a single DELETE removes every
github_events row created before the cutoff. -/
def retentionSweep (events : List GithubEventRow) (now : Int) : List GithubEventRow :=
  let cutoff := now - 5 * 86400000
  events.filter (fun e => ¬ e.created_at < cutoff)

/-! api surface: GET /feed/:fid (neynar-worker Hono app). -/

/-- Insertion step for ORDER BY created_at DESC. -/
def insertDescending (e : GithubEventRow) : List GithubEventRow → List GithubEventRow
  | [] => [e]
  | x :: xs => if x.created_at < e.created_at then e :: x :: xs else x :: insertDescending e xs

/-- ORDER BY created_at DESC as an insertion sort. -/
def sortByCreatedAtDesc (l : List GithubEventRow) : List GithubEventRow :=
  l.foldr insertDescending []

/-- The rows selected by the feed query before ordering and pagination:
github_events joined to users on fid, restricted to the follow-closure of the
requested fid (everyone the fid follows, plus the fid itself). -/
def feedClosureEvents (db : GitcastDB) (fid : Nat) : List GithubEventRow :=
  db.github_events.filter (fun e =>
    (db.follows.any (fun fl => fl.follower_fid = fid ∧ fl.following_fid = e.fid) ∨ e.fid = fid)
    ∧ db.users.any (fun u => u.fid = e.fid))

/-- INSERT INTO users (fid, last_updated) VALUES (?, ?) ON CONFLICT (fid)
DO UPDATE SET last_updated = excluded.last_updated (the cold-start stub). -/
def upsertUserTimestamp (tbl : List UserRow) (fid : Nat) (now : Int) : List UserRow :=
  if tbl.any (fun u => u.fid = fid) then touchUser tbl fid now
  else tbl ++ [{ fid := fid, farcaster_username := none, farcaster_display_name := none,
                 farcaster_pfp_url := none, github_username := none, last_updated := now }]

structure FeedResponse where
  events : List GithubEventRow
  page : Nat
  limit : Nat
  hasMore : Bool
deriving DecidableEq, Repr

/-- GET /feed/:fid — queries the paginated closure events; when the page is
empty it upserts a user stub and enqueues the three bootstrap messages; in
every case it additionally enqueues one background update_user before
responding. Returns the response, the enqueued messages in order, and the
resulting store. -/
def feedHandler (db : GitcastDB) (fid : Nat) (limit page : Nat) (now : Int) :
    FeedResponse × List NeynarMsg × GitcastDB :=
  let offset := (page - 1) * limit
  let eventsResult := ((sortByCreatedAtDesc (feedClosureEvents db fid)).drop offset).take limit
  let coldPair :=
    if eventsResult.length = 0 then
      ({ db with users := upsertUserTimestamp db.users fid now },
       [NeynarMsg.fetch_user_data fid, NeynarMsg.update_user fid,
        NeynarMsg.check_github_verifications [fid]])
    else (db, ([] : List NeynarMsg))
  ({ events := eventsResult, page := page, limit := limit,
     hasMore := eventsResult.length = limit },
   coldPair.2 ++ [NeynarMsg.update_user fid],
   coldPair.1)

/-! Projections and sample values used by the theorems and their witnesses. -/

/-- The columns of a github_events row rewritten by the ON CONFLICT clause of
the Activity Ingestion upsert: everything except the key id and fid. -/
def eventMutableFields (r : GithubEventRow) :
    String × Int × String × String × String × String × String ×
      Option String × Option String × String :=
  (r.type, r.created_at, r.actor_login, r.actor_avatar_url, r.repo_name, r.repo_url,
   r.action, r.commit_message, r.commit_url, r.event_url)

def emptyDB : GitcastDB := ⟨[], [], [], [], []⟩

/-- A payload that carries only commits. -/
def payloadWithCommits (cs : List Commit) : Payload :=
  ⟨some cs, none, none, none, none, none, none, none, none, none, none⟩

def samplePush2 : GithubEvent :=
  ⟨"e1", "PushEvent", 0, ⟨"alice", "av"⟩, ⟨"o/r"⟩,
   some (payloadWithCommits [⟨"abc", "m1"⟩, ⟨"dbc", "m2"⟩])⟩

def sampleWatch : GithubEvent :=
  ⟨"e2", "WatchEvent", 0, ⟨"alice", "av"⟩, ⟨"o/r"⟩, none⟩

/-- An event of an unrecognized kind whose type contains the word Event in
the middle rather than as a trailing suffix. -/
def sampleOddEvent : GithubEvent :=
  ⟨"e9", "FooEventBar", 0, ⟨"a", "b"⟩, ⟨"o/r"⟩, none⟩

/-- Two raw events sharing one upstream id but differing in every mutable
field, used to exercise the per-id upsert. -/
def sampleEventA : GithubEvent :=
  ⟨"ev1", "PushEvent", 10, ⟨"alice", "av1"⟩, ⟨"o/r"⟩,
   some (payloadWithCommits [⟨"abc", "m1"⟩])⟩

def sampleEventB : GithubEvent :=
  ⟨"ev1", "WatchEvent", 20, ⟨"bob", "av2"⟩, ⟨"o/s"⟩, none⟩

def sweepNow : Int := 500000000000

def oldEventRow : GithubEventRow :=
  ⟨"old", 1, "PushEvent", sweepNow - 5 * 86400000 - 1000, "", "", "", "", "", none, none, ""⟩

def newEventRow : GithubEventRow :=
  ⟨"new", 1, "PushEvent", sweepNow - 5 * 86400000 + 60000, "", "", "", "", "", none, none, ""⟩

def sampleStarRow : UserStarRow := ⟨1, 10, 42⟩

def sampleRepoInfo : RepoInfo := ⟨10, "r", "o/r", none, "u", "h", 5, 2⟩

def starDB : GitcastDB := ⟨[], [], [], [], [sampleStarRow]⟩

/-- The fresh users row inserted by the Verification Matching stage when the
targeted UPDATE reports zero changed rows. -/
def verificationStub (v : Verification) (now : Int) : UserRow :=
  { fid := v.fid, farcaster_username := none, farcaster_display_name := none,
    farcaster_pfp_url := none, github_username := some v.platformUsername,
    last_updated := now }

/-! Helper lemmas shared by the claim developments. -/

theorem follows_filter_disjoint (l : List FollowRow) (fid : Nat) :
    (l.filter (fun e => ¬ e.follower_fid = fid)).filter (fun e => e.follower_fid = fid) = [] := by
  rw [List.filter_eq_nil_iff]
  intro a ha
  have h2 := (List.mem_filter.mp ha).2
  simp only [decide_not, Bool.not_eq_true', decide_eq_false_iff_not] at h2
  simp only [decide_eq_true_eq]
  exact h2

theorem follows_filter_map_self (following : List Nat) (fid : Nat) (now : Int) :
    (following.map (fun g =>
        ({ follower_fid := fid, following_fid := g, created_at := now } : FollowRow))).filter
      (fun e => e.follower_fid = fid) =
    following.map (fun g =>
      ({ follower_fid := fid, following_fid := g, created_at := now } : FollowRow)) := by
  rw [List.filter_eq_self]
  intro a ha
  obtain ⟨g, hg, rfl⟩ := List.mem_map.mp ha
  simp

/-! C1. -/

/-- C1: the claim requires every queue message to be acknowledged only after
its store mutations and follow-up enqueues succeed, a failed message staying
unacknowledged for redelivery. Both consumers instead invoke message.ack()
as the first statement of the try block, and the catch block cannot revoke
it, so a message whose body fails still ends the iteration acknowledged
(with the store untouched) and is never redelivered — contradicting the
claim and the catch-block comment in the source. -/
theorem c1_failed_message_still_acked (db : GitcastDB)
    (body : GitcastDB → Except Unit GitcastDB) (h : body db = Except.error ()) :
    (consumeQueueMessage db body).1 = true ∧ (consumeQueueMessage db body).2 = db := by
  simp [consumeQueueMessage, h]

theorem c1_failed_message_still_acked_witness :
    ((fun _ : GitcastDB => (Except.error () : Except Unit GitcastDB)) emptyDB
        = Except.error ()) ∧
    ((consumeQueueMessage emptyDB (fun _ => Except.error ())).1 = true ∧
      (consumeQueueMessage emptyDB (fun _ => Except.error ())).2 = emptyDB) :=
  ⟨rfl, c1_failed_message_still_acked emptyDB (fun _ => Except.error ()) rfl⟩

/-! C2. -/

/-- C2 as stated fails on the code: an Identity Resolution run whose fetched
following set is empty does not clear the previously stored edges. With one
stored edge 1 → 2, a run for follower 1 that fetched the empty set leaves
the stored follow rows for follower 1 equal to the old edge instead of the
empty set. -/
theorem c2_counterexample :
    ((updateUserHandler ⟨[], [⟨1, 2, 0⟩], [], [], []⟩ 1 [] 5).1.follows.filter
        (fun e => e.follower_fid = 1)) = [⟨1, 2, 0⟩] ∧
    ¬ ((updateUserHandler ⟨[], [⟨1, 2, 0⟩], [], [], []⟩ 1 [] 5).1.follows.filter
        (fun e => e.follower_fid = 1)) = [] := by
  decide

/-- C2 amended: after an update_user run that fetched a NON-EMPTY following
set S2, the stored follows rows for the follower equal exactly S2 (stamped
with the run's timestamp), with no leftover edges from the previous
snapshot; a run whose fetched set is empty instead leaves the rows
unchanged. -/
theorem c2_follow_refresh_nonempty (db : GitcastDB) (fid : Nat) (following : List Nat)
    (now : Int) (h : following ≠ []) :
    ((updateUserHandler db fid following now).1.follows.filter
        (fun e => e.follower_fid = fid)) =
      following.map (fun g =>
        { follower_fid := fid, following_fid := g, created_at := now }) := by
  have hl : 0 < following.length := List.length_pos.mpr h
  unfold updateUserHandler
  simp only [hl, if_true]
  rw [List.filter_append, follows_filter_disjoint, follows_filter_map_self]
  exact List.nil_append _

theorem c2_follow_refresh_nonempty_witness :
    (([2, 3] : List Nat) ≠ []) ∧
    ((updateUserHandler ⟨[], [⟨1, 9, 0⟩], [], [], []⟩ 1 [2, 3] 7).1.follows.filter
        (fun e => e.follower_fid = 1)) =
      ([2, 3] : List Nat).map (fun g =>
        { follower_fid := 1, following_fid := g, created_at := 7 }) :=
  ⟨by decide,
   c2_follow_refresh_nonempty ⟨[], [⟨1, 9, 0⟩], [], [], []⟩ 1 [2, 3] 7 (by decide)⟩

/-! C6. -/

/-- C6: the daily retention sweep computes the five-day cutoff once and, in
one statement, deletes exactly the github_events rows created before
now minus five days: a stored row survives the sweep exactly when its
timestamp is at least the cutoff, so a row one second older than the cutoff
is removed and a row one minute younger is retained. -/
theorem c6_retention_cutoff (events : List GithubEventRow) (now : Int)
    (e : GithubEventRow) (he : e ∈ events) :
    (e ∈ retentionSweep events now ↔ now - 5 * 86400000 ≤ e.created_at) := by
  simp [retentionSweep, List.mem_filter, he, not_lt]

theorem c6_retention_cutoff_witness :
    (oldEventRow ∈ [oldEventRow, newEventRow]) ∧
    ¬ oldEventRow ∈ retentionSweep [oldEventRow, newEventRow] sweepNow ∧
    (newEventRow ∈ [oldEventRow, newEventRow]) ∧
    newEventRow ∈ retentionSweep [oldEventRow, newEventRow] sweepNow :=
  ⟨by decide,
   fun hmem =>
     absurd ((c6_retention_cutoff [oldEventRow, newEventRow] sweepNow oldEventRow
       (by decide)).mp hmem) (by decide),
   by decide,
   (c6_retention_cutoff [oldEventRow, newEventRow] sweepNow newEventRow
     (by decide)).mpr (by decide)⟩

/-! C5. -/

theorem insertUserStar_preserves (tbl : List UserStarRow) (s : UserStarRow)
    (hs : s ∈ tbl) (fid rid : Nat) (now : Int) :
    s ∈ insertUserStar tbl fid rid now ∧
    (insertUserStar tbl fid rid now).countP
        (fun x => x.fid = s.fid ∧ x.repo_id = s.repo_id) =
      tbl.countP (fun x => x.fid = s.fid ∧ x.repo_id = s.repo_id) := by
  unfold insertUserStar
  by_cases hany : tbl.any (fun x => x.fid = fid ∧ x.repo_id = rid) = true
  · rw [if_pos hany]
    exact ⟨hs, rfl⟩
  · rw [if_neg hany]
    refine ⟨List.mem_append_left _ hs, ?_⟩
    rw [List.countP_append]
    have hfalse : ¬ (fid = s.fid ∧ rid = s.repo_id) := by
      rintro ⟨h1, h2⟩
      exact hany (List.any_eq_true.mpr ⟨s, hs, by simp [h1.symm, h2.symm]⟩)
    simp [List.countP_cons, hfalse]

theorem starFold_preserves (fid : Nat) (now : Int) (s : UserStarRow) :
    ∀ (starred : List RepoInfo) (tbl : List UserStarRow), s ∈ tbl →
      s ∈ starred.foldl (fun t r => insertUserStar t fid r.id now) tbl ∧
      (starred.foldl (fun t r => insertUserStar t fid r.id now) tbl).countP
          (fun x => x.fid = s.fid ∧ x.repo_id = s.repo_id) =
        tbl.countP (fun x => x.fid = s.fid ∧ x.repo_id = s.repo_id) := by
  intro starred
  induction starred with
  | nil => exact fun tbl hs => ⟨hs, rfl⟩
  | cons r rs ih =>
    intro tbl hs
    have hstep := insertUserStar_preserves tbl s hs fid r.id now
    have hrec := ih (insertUserStar tbl fid r.id now) hstep.1
    exact ⟨hrec.1, hrec.2.trans hstep.2⟩

/-- C5: Star Ingestion is insert-if-absent on user_stars: every stored star
row survives a fetch_starred_repos run untouched (in particular its
starred_at timestamp), and the number of rows for that user/repository pair
does not change, so re-running the stage for a pair already starred neither
overwrites the original starred_at nor duplicates the edge. -/
theorem c5_starred_at_immutable (db : GitcastDB) (fid : Nat) (starred : List RepoInfo)
    (now : Int) (s : UserStarRow) (hs : s ∈ db.user_stars) :
    s ∈ (fetchStarredReposHandler db fid starred now).user_stars ∧
    (fetchStarredReposHandler db fid starred now).user_stars.countP
        (fun x => x.fid = s.fid ∧ x.repo_id = s.repo_id) =
      db.user_stars.countP (fun x => x.fid = s.fid ∧ x.repo_id = s.repo_id) := by
  have hproj : (fetchStarredReposHandler db fid starred now).user_stars =
      starred.foldl (fun t r => insertUserStar t fid r.id now) db.user_stars := rfl
  rw [hproj]
  exact starFold_preserves fid now s starred db.user_stars hs

theorem c5_starred_at_immutable_witness :
    (sampleStarRow ∈ starDB.user_stars) ∧
    (sampleStarRow ∈ (fetchStarredReposHandler starDB 1 [sampleRepoInfo] 99).user_stars ∧
      (fetchStarredReposHandler starDB 1 [sampleRepoInfo] 99).user_stars.countP
          (fun x => x.fid = sampleStarRow.fid ∧ x.repo_id = sampleStarRow.repo_id) =
        starDB.user_stars.countP
          (fun x => x.fid = sampleStarRow.fid ∧ x.repo_id = sampleStarRow.repo_id)) :=
  ⟨by decide, c5_starred_at_immutable starDB 1 [sampleRepoInfo] 99 sampleStarRow (by decide)⟩

/-! C9. -/

theorem map_update_id (tbl : List UserRow) (v : Verification) (now : Int)
    (hall : ∀ a ∈ tbl, ¬ a.fid = v.fid) :
    tbl.map (fun u => if u.fid = v.fid then
        { u with github_username := some v.platformUsername, last_updated := now }
      else u) = tbl := by
  induction tbl with
  | nil => rfl
  | cons a l ih =>
    simp only [List.map_cons]
    rw [if_neg (hall a (List.mem_cons_self a l)),
      ih (fun b hb => hall b (List.mem_cons_of_mem a hb))]

theorem applyVerification_absent (tbl : List UserRow) (v : Verification) (now : Int)
    (hc : tbl.countP (fun u => u.fid = v.fid) = 0) :
    applyVerification tbl v now = tbl ++ [verificationStub v now] := by
  have hall : ∀ a ∈ tbl, ¬ a.fid = v.fid := by
    intro a ha
    have := List.countP_eq_zero.mp hc a ha
    simpa using this
  unfold applyVerification
  simp only [hc, if_pos]
  rw [map_update_id tbl v now hall]
  rfl

theorem applyVerification_present (tbl : List UserRow) (v : Verification) (now : Int)
    (hc : ¬ tbl.countP (fun u => u.fid = v.fid) = 0) :
    applyVerification tbl v now = tbl.map (fun u =>
      if u.fid = v.fid then
        { u with github_username := some v.platformUsername, last_updated := now }
      else u) := by
  unfold applyVerification
  rw [if_neg hc]

/-- C9: for every verification match, the stage leaves at least one users row
for the matched fid, every users row for that fid ends up carrying the
verified external username and the run's last_updated; and when no users row
existed for that fid the stage appends a fresh row holding exactly the
verified username and last_updated rather than dropping the update. -/
theorem c9_verification_creates_or_updates (tbl : List UserRow) (v : Verification)
    (now : Int) :
    (∃ u ∈ applyVerification tbl v now, u.fid = v.fid) ∧
    (∀ u ∈ applyVerification tbl v now, u.fid = v.fid →
        u.github_username = some v.platformUsername ∧ u.last_updated = now) ∧
    (tbl.countP (fun u => u.fid = v.fid) = 0 →
        applyVerification tbl v now = tbl ++ [verificationStub v now]) := by
  by_cases hc : tbl.countP (fun u => u.fid = v.fid) = 0
  · rw [applyVerification_absent tbl v now hc]
    refine ⟨⟨verificationStub v now, List.mem_append_right _ (List.mem_singleton.mpr rfl), rfl⟩,
      ?_, fun _ => rfl⟩
    intro u hu hufid
    rcases List.mem_append.mp hu with h1 | h1
    · have := List.countP_eq_zero.mp hc u h1
      simp only [decide_eq_true_eq] at this
      exact absurd hufid this
    · rw [List.mem_singleton.mp h1]
      exact ⟨rfl, rfl⟩
  · rw [applyVerification_present tbl v now hc]
    have hpos : 0 < tbl.countP (fun u => u.fid = v.fid) := Nat.pos_of_ne_zero hc
    obtain ⟨a, ha, hp⟩ := List.countP_pos_iff.mp hpos
    have hafid : a.fid = v.fid := by simpa using hp
    refine ⟨?_, ?_, fun h0 => absurd h0 hc⟩
    · refine ⟨{ a with github_username := some v.platformUsername, last_updated := now },
        List.mem_map.mpr ⟨a, ha, if_pos hafid⟩, hafid⟩
    · intro u hu hufid
      obtain ⟨b, hb, rfl⟩ := List.mem_map.mp hu
      by_cases hbf : b.fid = v.fid
      · rw [if_pos hbf]
        exact ⟨rfl, rfl⟩
      · rw [if_neg hbf] at hufid
        exact absurd hufid hbf

theorem c9_verification_creates_or_updates_witness :
    (([] : List UserRow).countP (fun u => u.fid = 3) = 0) ∧
    applyVerification [] ⟨3, "octo"⟩ 50 = [] ++ [verificationStub ⟨3, "octo"⟩ 50] :=
  ⟨by decide,
   (c9_verification_creates_or_updates [] ⟨3, "octo"⟩ 50).2.2 (by decide)⟩

/-! C10. -/

/-- C10: when the following list obtained by the update_user handler is
empty — which is exactly what the shared client returns whenever the
upstream call fails — the handler skips both the delete and the insert of
follow edges, leaving every existing follows row unchanged. -/
theorem c10_empty_following_leaves_follows (db : GitcastDB) (fid : Nat) (now : Int) :
    (updateUserHandler db fid (getFollowingResult (Except.error ())) now).1.follows
        = db.follows ∧
    (updateUserHandler db fid [] now).1.follows = db.follows :=
  ⟨rfl, rfl⟩

/-! C3. -/

theorem upsertEvent_countP_one (tbl : List GithubEventRow) (e : GithubEventRow) (i : String)
    (hei : e.id = i) (h : tbl.countP (fun r => r.id = i) ≤ 1) :
    (upsertEvent tbl e).countP (fun r => r.id = i) = 1 := by
  subst hei
  unfold upsertEvent
  by_cases hany : tbl.any (fun r => r.id = e.id) = true
  · rw [if_pos hany]
    have hpos : 0 < tbl.countP (fun r => r.id = e.id) := by
      rw [List.countP_pos_iff]
      obtain ⟨a, ha, hp⟩ := List.any_eq_true.mp hany
      exact ⟨a, ha, hp⟩
    have hmap : (tbl.map (fun r =>
        if r.id = e.id then
          { r with
            type := e.type
            created_at := e.created_at
            actor_login := e.actor_login
            actor_avatar_url := e.actor_avatar_url
            repo_name := e.repo_name
            repo_url := e.repo_url
            action := e.action
            commit_message := e.commit_message
            commit_url := e.commit_url
            event_url := e.event_url }
        else r)).countP (fun r => r.id = e.id) = tbl.countP (fun r => r.id = e.id) := by
      rw [List.countP_map]
      apply List.countP_congr
      intro x hx
      by_cases hxi : x.id = e.id
      · simp [Function.comp, hxi]
      · simp [Function.comp, hxi]
    rw [hmap]
    omega
  · rw [if_neg hany]
    rw [List.countP_append]
    have h0 : tbl.countP (fun r => r.id = e.id) = 0 := by
      rw [List.countP_eq_zero]
      intro a ha hp
      exact hany (List.any_eq_true.mpr ⟨a, ha, hp⟩)
    simp [h0, List.countP_cons]

theorem upsertEvent_fields (tbl : List GithubEventRow) (e : GithubEventRow)
    (r : GithubEventRow) (hr : r ∈ upsertEvent tbl e) (hri : r.id = e.id) :
    eventMutableFields r = eventMutableFields e := by
  unfold upsertEvent at hr
  by_cases hany : tbl.any (fun x => x.id = e.id) = true
  · rw [if_pos hany] at hr
    obtain ⟨a, ha, rfl⟩ := List.mem_map.mp hr
    by_cases haf : a.id = e.id
    · rw [if_pos haf]
      rfl
    · rw [if_neg haf] at hri
      exact absurd hri haf
  · rw [if_neg hany] at hr
    rcases List.mem_append.mp hr with h1 | h1
    · exact absurd (List.any_eq_true.mpr ⟨r, h1, by simpa using hri⟩) hany
    · rw [List.mem_singleton.mp h1]

/-- C3: ingesting twice, for the same upstream event id, records whose
mutable fields differ leaves exactly one github_events row carrying that id
(assuming the table satisfies its primary-key invariant of at most one row
per id beforehand), and that row's mutable columns equal those of the later
ingestion: the per-id upsert is last-write-wins and never duplicates
rows. -/
theorem c3_event_upsert_last_write_wins (db : GitcastDB) (fid1 fid2 : Nat)
    (e1 e2 : GithubEvent) (hid : e1.id = e2.id)
    (hpk : db.github_events.countP (fun r => r.id = e2.id) ≤ 1) :
    ((fetchGithubEventsHandler (fetchGithubEventsHandler db fid1 [e1]) fid2
        [e2]).github_events.countP (fun r => r.id = e2.id) = 1) ∧
    (∀ r ∈ (fetchGithubEventsHandler (fetchGithubEventsHandler db fid1 [e1]) fid2
        [e2]).github_events,
      r.id = e2.id → eventMutableFields r = eventMutableFields (simplifyEventRow fid2 e2)) := by
  have hproj : (fetchGithubEventsHandler (fetchGithubEventsHandler db fid1 [e1]) fid2
      [e2]).github_events =
      upsertEvent (upsertEvent db.github_events (simplifyEventRow fid1 e1))
        (simplifyEventRow fid2 e2) := rfl
  rw [hproj]
  have hid1 : (simplifyEventRow fid1 e1).id = e2.id := hid
  have hc1 : (upsertEvent db.github_events (simplifyEventRow fid1 e1)).countP
      (fun r => r.id = e2.id) = 1 :=
    upsertEvent_countP_one db.github_events (simplifyEventRow fid1 e1) e2.id hid1 hpk
  refine ⟨upsertEvent_countP_one _ (simplifyEventRow fid2 e2) e2.id rfl (le_of_eq hc1), ?_⟩
  intro r hr hri
  exact upsertEvent_fields _ (simplifyEventRow fid2 e2) r hr hri

theorem c3_event_upsert_last_write_wins_witness :
    (sampleEventA.id = sampleEventB.id) ∧
    (emptyDB.github_events.countP (fun r => r.id = sampleEventB.id) ≤ 1) ∧
    ((fetchGithubEventsHandler (fetchGithubEventsHandler emptyDB 5 [sampleEventA]) 6
        [sampleEventB]).github_events.countP (fun r => r.id = sampleEventB.id) = 1) :=
  ⟨rfl, by decide,
   (c3_event_upsert_last_write_wins emptyDB 5 6 sampleEventA sampleEventB rfl (by decide)).1⟩

/-! C4. -/

/-- C4 as stated fails on the code: for a cold fid the feed route does
return an empty page and does enqueue one fetch_user_data and one
check_github_verifications with fids = [fid], but it enqueues update_user
TWICE — once in the cold-start branch and once more unconditionally as the
background refresh performed on every read — so "exactly one update_user
message" is false. -/
theorem c4_counterexample :
    (feedHandler ⟨[], [], [], [], []⟩ 7 30 1 0).1.events = [] ∧
    ((feedHandler ⟨[], [], [], [], []⟩ 7 30 1 0).2.1.countP
        (fun m => m = NeynarMsg.update_user 7) = 2) ∧
    ¬ ((feedHandler ⟨[], [], [], [], []⟩ 7 30 1 0).2.1.countP
        (fun m => m = NeynarMsg.update_user 7) = 1) := by
  decide

/-- C4 amended: for a cold fid (the closure query returns no rows), the feed
request returns an empty page and enqueues, in order, exactly one
fetch_user_data, one update_user from the cold-start bootstrap, one
check_github_verifications with fids = [fid], and one further update_user
from the unconditional per-read background refresh — hence two update_user
messages in total, not one. -/
theorem c4_cold_feed_bootstrap (db : GitcastDB) (fid : Nat) (limit page : Nat)
    (now : Int) (h : feedClosureEvents db fid = []) :
    (feedHandler db fid limit page now).1.events = [] ∧
    (feedHandler db fid limit page now).2.1 =
      [NeynarMsg.fetch_user_data fid, NeynarMsg.update_user fid,
       NeynarMsg.check_github_verifications [fid], NeynarMsg.update_user fid] := by
  unfold feedHandler
  rw [h]
  simp [sortByCreatedAtDesc]

theorem c4_cold_feed_bootstrap_witness :
    (feedClosureEvents emptyDB 7 = []) ∧
    ((feedHandler emptyDB 7 30 1 0).1.events = [] ∧
      (feedHandler emptyDB 7 30 1 0).2.1 =
        [NeynarMsg.fetch_user_data 7, NeynarMsg.update_user 7,
         NeynarMsg.check_github_verifications [7], NeynarMsg.update_user 7]) :=
  ⟨rfl, c4_cold_feed_bootstrap emptyDB 7 30 1 0 rfl⟩

/-! C7. -/

/-- C7: the classifier maps a push event carrying N commits to the action
"pushed N commit(s)" with correct English pluralization, and to a url that
is the first commit's commit URL when at least one commit is present and
the repository URL otherwise; it maps a watch event to the fixed action
"starred repository" with the repository URL. -/
theorem c7_classifier_push_watch (evt : GithubEvent) :
    (evt.type = "PushEvent" →
      getEventAction evt = pushActionString (eventCommits evt).length ∧
      getEventUrl evt = (match eventCommits evt with
        | [] => repoUrl evt
        | c :: _ => repoUrl evt ++ "/commit/" ++ c.sha)) ∧
    (evt.type = "WatchEvent" →
      getEventAction evt = "starred repository" ∧
      getEventUrl evt = repoUrl evt) := by
  constructor
  · intro h
    constructor
    · unfold getEventAction
      rw [h]
      simp only [reduceIte]
      unfold pushActionString
      by_cases hn : (eventCommits evt).length = 1
      · rw [hn]
        decide
      · simp only [hn, if_false, ne_eq, not_false_eq_true, if_true, String.append_assoc]
        rfl
    · unfold getEventUrl
      rw [h]
      simp only [reduceIte]
  · intro h
    constructor
    · unfold getEventAction
      rw [h]
      simp
    · unfold getEventUrl
      rw [h]
      simp [repoUrl]

theorem c7_classifier_push_watch_witness :
    (samplePush2.type = "PushEvent") ∧
    getEventAction samplePush2 = "pushed 2 commits" ∧
    getEventUrl samplePush2 = "https://github.com/o/r/commit/abc" ∧
    (sampleWatch.type = "WatchEvent") ∧
    getEventAction sampleWatch = "starred repository" ∧
    getEventUrl sampleWatch = repoUrl sampleWatch := by
  refine ⟨rfl, ?_, ?_, rfl, ?_, ?_⟩
  · exact (((c7_classifier_push_watch samplePush2).1 rfl).1).trans (by decide)
  · exact (((c7_classifier_push_watch samplePush2).1 rfl).2).trans (by decide)
  · exact ((c7_classifier_push_watch sampleWatch).2 rfl).1
  · exact ((c7_classifier_push_watch sampleWatch).2 rfl).2

/-! C8. -/

/-- C8 as stated fails on the code: for an unrecognized event kind the
classifier computes the action with JavaScript String.replace, which removes
the FIRST occurrence of "Event" in the type string, not a trailing suffix.
On the unrecognized kind "FooEventBar" the code yields "FooBar", while
stripping a trailing "Event" suffix would leave "FooEventBar" unchanged. -/
theorem c8_counterexample :
    getEventAction sampleOddEvent = "FooBar" ∧
    stripTrailingEvent (sampleOddEvent.type) = "FooEventBar" ∧
    ¬ getEventAction sampleOddEvent = stripTrailingEvent (sampleOddEvent.type) := by
  decide

/-- C8 amended: for every event whose type is recognized by neither switch,
the classifier returns the event type with the FIRST occurrence of the
substring "Event" removed (which coincides with stripping the trailing
suffix exactly when "Event" occurs only at the end, as it does for all real
GitHub event kinds), and the repository URL. -/
theorem c8_unrecognized_kind (evt : GithubEvent)
    (ha : ¬ evt.type ∈ (["PushEvent", "CreateEvent", "PullRequestEvent", "IssuesEvent",
        "IssueCommentEvent", "WatchEvent", "ForkEvent"] : List String))
    (hu : ¬ evt.type ∈ (["PushEvent", "PullRequestEvent", "IssuesEvent", "IssueCommentEvent",
        "CreateEvent", "DeleteEvent", "ForkEvent", "WatchEvent", "ReleaseEvent",
        "CommitCommentEvent", "PullRequestReviewEvent", "PullRequestReviewCommentEvent",
        "PublicEvent", "MemberEvent"] : List String)) :
    getEventAction evt = replaceFirst (evt.type) ("Event") ("") ∧
    getEventUrl evt = repoUrl evt := by
  simp only [List.mem_cons, List.not_mem_nil, or_false, not_or] at ha hu
  obtain ⟨a1, a2, a3, a4, a5, a6, a7⟩ := ha
  obtain ⟨u1, u2, u3, u4, u5, u6, u7, u8, u9, u10, u11, u12, u13, u14⟩ := hu
  constructor
  · unfold getEventAction
    simp [a1, a2, a3, a4, a5, a6, a7]
  · unfold getEventUrl
    simp [u1, u2, u3, u4, u5, u6, u7, u8, u9, u10, u11, u12, u13, u14]

theorem c8_unrecognized_kind_witness :
    (¬ sampleOddEvent.type ∈ (["PushEvent", "CreateEvent", "PullRequestEvent", "IssuesEvent",
        "IssueCommentEvent", "WatchEvent", "ForkEvent"] : List String)) ∧
    (¬ sampleOddEvent.type ∈ (["PushEvent", "PullRequestEvent", "IssuesEvent",
        "IssueCommentEvent", "CreateEvent", "DeleteEvent", "ForkEvent", "WatchEvent",
        "ReleaseEvent", "CommitCommentEvent", "PullRequestReviewEvent",
        "PullRequestReviewCommentEvent", "PublicEvent", "MemberEvent"] : List String)) ∧
    (getEventAction sampleOddEvent = replaceFirst (sampleOddEvent.type) ("Event") ("") ∧
      getEventUrl sampleOddEvent = repoUrl sampleOddEvent) :=
  ⟨by decide, by decide, c8_unrecognized_kind sampleOddEvent (by decide) (by decide)⟩

end Gitcast
